import Mathlib

/-!
Verification of the HTTP request layer of this repository: the rate
limiter with its request queue, the request executor with bounded retry,
and the cache policy of the API facade.

JavaScript numbers are modelled as exact rationals extended with NaN and
the two signed infinities; Date values are epoch milliseconds. Promises
and timers are modelled by explicit state passing plus an event trace
that records sleeps, network calls and notifications in program order.
-/

/-- JavaScript number values as the rate-limit logic observes them:
NaN, Infinity, -Infinity, or a finite value modelled as an exact rational. -/
inductive JsNum where
  | nan
  | inf
  | negInf
  | val (q : ℚ)
deriving DecidableEq, Repr

/-- JavaScript division on the modelled numbers; finite division is exact. -/
def jsDiv : JsNum → JsNum → JsNum
  | .nan, _ => .nan
  | _, .nan => .nan
  | .inf, .inf => .nan
  | .inf, .negInf => .nan
  | .negInf, .inf => .nan
  | .negInf, .negInf => .nan
  | .inf, .val b => if b < 0 then .negInf else .inf
  | .negInf, .val b => if b < 0 then .inf else .negInf
  | .val _, .inf => .val 0
  | .val _, .negInf => .val 0
  | .val a, .val b =>
      if b = 0 then (if a = 0 then .nan else if 0 < a then .inf else .negInf)
      else .val (a / b)

/-- JavaScript comparison x > c against a finite literal: false on NaN. -/
def jsGt : JsNum → ℚ → Bool
  | .nan, _ => false
  | .inf, _ => true
  | .negInf, _ => false
  | .val a, c => decide (c < a)

/-- Multiplication of a JavaScript number by a positive finite literal
(the code only multiplies by 2, 4 and 1000). -/
def jsMul : JsNum → ℚ → JsNum
  | .nan, _ => .nan
  | .inf, _ => .inf
  | .negInf, _ => .negInf
  | .val a, c => .val (a * c)

/-- The JavaScript operator (x || d) on a nullable string: null and the
empty string are falsy and select the default. -/
def jsOrString : Option String → String → String
  | none, d => d
  | some s, d => if s = "" then d else s

/-- Truthiness of a nullable string: null and the empty string are falsy. -/
def jsTruthyStr : Option String → Bool
  | none => false
  | some s => !(s == "")

/-- Decimal digits to a natural number. -/
def digitsToNat (ds : List Char) : ℕ :=
  ds.foldl (fun n c => 10 * n + (c.toNat - 48)) 0

/-- JavaScript parseInt restricted to base 10 inputs as this code meets
them: skip leading spaces, read an optional sign and then a leading run of
decimal digits; the result is NaN when no digit is found. In particular
parseInt applied to the fallback string Infinity is NaN, not Infinity. -/
def jsParseInt (s : String) : JsNum :=
  let cs := s.toList.dropWhile (fun c => c = ' ')
  match cs with
  | '-' :: rest =>
      let ds := rest.takeWhile Char.isDigit
      if ds.isEmpty then .nan else .val (-(digitsToNat ds : ℚ))
  | '+' :: rest =>
      let ds := rest.takeWhile Char.isDigit
      if ds.isEmpty then .nan else .val (digitsToNat ds : ℚ)
  | rest =>
      let ds := rest.takeWhile Char.isDigit
      if ds.isEmpty then .nan else .val (digitsToNat ds : ℚ)

/-- String prefix test, url.startsWith in the source, computed on the
character lists. -/
def strIsPrefixOf (p s : String) : Bool := p.toList.isPrefixOf s.toList

/-- The response headers the request layer reads, each nullable exactly as
Headers.get is in the source. -/
structure HeadersModel where
  xRatelimitRemaining : Option String
  xRatelimitReset : Option String
  xRatelimitLimit : Option String
  retryAfter : Option String
deriving DecidableEq, Repr

/-- Headers carrying none of the rate-limit fields. -/
def emptyHeaders : HeadersModel := ⟨none, none, none, none⟩

/-- The RateLimitInfo record of the source: requestsRemaining and
totalLimit are JavaScript numbers, resetTime is a Date modelled as its
epoch-millisecond value (NaN for an invalid Date). -/
structure RateLimitInfo where
  requestsRemaining : JsNum
  resetTime : JsNum
  totalLimit : JsNum
deriving DecidableEq, Repr

/-- Mutable state of the RateLimiter class: its stored RateLimitInfo and
the internal backoff base time (1000 ms at construction). -/
structure RateLimiterState where
  rateLimitInfo : RateLimitInfo
  backoffTime : ℚ
deriving DecidableEq, Repr

/-- RateLimiter state as the constructor builds it: unbounded quota,
resetTime the construction time, backoff base 1000 ms. -/
def RateLimiter.initState (constructedAt : ℤ) : RateLimiterState :=
  { rateLimitInfo :=
      { requestsRemaining := JsNum.inf
        resetTime := JsNum.val (constructedAt : ℚ)
        totalLimit := JsNum.inf }
    backoffTime := 1000 }

/-- RateLimiter.updateRateLimits from the source: parse the three
rate-limit headers (falling back to the string Infinity when a header is
null or empty) and overwrite the stored record; the reset header, when
truthy, is parsed as epoch seconds and scaled to milliseconds, otherwise
resetTime becomes the current time. -/
def RateLimiter.updateRateLimits (s : RateLimiterState) (headers : HeadersModel)
    (now : ℤ) : RateLimiterState :=
  let remaining := jsParseInt (jsOrString headers.xRatelimitRemaining "Infinity")
  let reset := headers.xRatelimitReset
  let limit := jsParseInt (jsOrString headers.xRatelimitLimit "Infinity")
  { s with rateLimitInfo :=
      { requestsRemaining := remaining
        resetTime :=
          if jsTruthyStr reset then jsMul (jsParseInt (reset.getD "")) 1000
          else JsNum.val (now : ℚ)
        totalLimit := limit } }

/-- RateLimiter.calculateBackoff from the source: 0 when
requestsRemaining is Infinity, otherwise a step function of the remaining
percentage requestsRemaining / totalLimit with thresholds 0.5, 0.2, 0.1
and values 0, backoffTime, 2 backoffTime, 4 backoffTime. -/
def RateLimiter.calculateBackoff (s : RateLimiterState) : ℚ :=
  if s.rateLimitInfo.requestsRemaining = JsNum.inf then 0
  else
    let remainingPercentage :=
      jsDiv s.rateLimitInfo.requestsRemaining s.rateLimitInfo.totalLimit
    if jsGt remainingPercentage (1/2) then 0
    else if jsGt remainingPercentage (1/5) then s.backoffTime
    else if jsGt remainingPercentage (1/10) then s.backoffTime * 2
    else s.backoffTime * 4

/-- Request options as far as the retry logic passes them along: the
executor forwards the same options value to every retry of a call. -/
structure RequestInit where
  method : Option String
  body : Option String
deriving DecidableEq, Repr

/-- The default empty options, as in request(url). -/
def defaultInit : RequestInit := ⟨none, none⟩

/-- The slice of a fetch Response the request layer inspects: status,
ok flag, statusText, headers, and the parsed JSON body (none models a
body on which response.json() throws). -/
structure ResponseModel where
  status : ℤ
  ok : Bool
  statusText : String
  headers : HeadersModel
  jsonBody : Option String
deriving DecidableEq, Repr

/-- Environment of one attempt of a call: the tokens the auth source
returns at that moment, the network outcome of fetch (none models a
thrown network error), and whether the nested authenticate request made
after a 401 succeeds. -/
structure EnvStep where
  token : Option String
  githubToken : Option String
  fetchResult : Option ResponseModel
  authSucceeds : Bool
deriving DecidableEq, Repr

/-- An environment maps the attempt index of a call to its EnvStep. -/
def Env := ℕ → EnvStep

/-- Observable events of one call in program order. -/
inductive Event where
  | waitAuth (delayMs : ℚ)
  | fetch (url : String) (options : RequestInit) (budget : ℤ)
  | limitsUpdate (headers : HeadersModel)
  | authCall (toastSuppressed : Bool)
  | sleep (ms : JsNum)
  | toastError (topic msg : String)
deriving DecidableEq, Repr

/-- Result of one call through request. -/
inductive ReqResult where
  | success (data : String)
  | rawResponse (r : ResponseModel)
  | error (msg : String)
deriving DecidableEq, Repr

/-- The four unauthenticated route prefixes of the source. -/
def UNAUTHED_ROUTE_PREFIXES : List String :=
  ["/api/authenticate", "/api/options/", "/config.json", "/api/github/callback"]

/-- The fixed pre-auth delay of the source, in milliseconds. -/
def WAIT_FOR_AUTH_DELAY_MS : ℚ := 500

/-- Whether a url needs authentication: it does unless some member of
UNAUTHED_ROUTE_PREFIXES is a prefix of it (the needsAuth expression of
executeRequest in the source). -/
def needsAuthFor (url : String) : Bool :=
  !(UNAUTHED_ROUTE_PREFIXES.any (fun p => strIsPrefixOf p url))

/-- Events emitted by one onFail call of the source: a toast on the api
topic unless suppressed; onFail always throws, so the caller pairs these
events with an error result. -/
def onFailEvents (disableToast : Bool) (msg : String) : List Event :=
  if disableToast then [] else [Event.toastError "api" msg]

/-- The executeRequest closure of request in the source, as one pure
function: the per-attempt environment supplies tokens and the network
outcome, the rate limiter state is threaded through, and the returned
trace lists waits, fetches, limiter updates, nested authenticate calls,
sleeps and toasts in program order. The recursive request calls of the
source (auth wait, 401 retry, 429 retry) become recursion with
maxRetries decremented; the nested authenticate request of the 401
branch is abstracted to its success bit in the environment. An onFail
raised inside the try block of the source is caught by the catch of that
same block, which calls onFail again with the generic fetch failure
message, so those paths end in that message and may emit two toasts. -/
def executeRequest (env : Env) (lim : RateLimiterState) (now : ℤ)
    (url : String) (options : RequestInit)
    (disableToast returnResponse : Bool) (maxRetries : ℤ) (attempt : ℕ) :
    ReqResult × List Event × RateLimiterState :=
  if _h : maxRetries < 0 then (.error "Max retries exceeded", [], lim)
  else
    let needsAuth := needsAuthFor url
    let step := env attempt
    if !(jsTruthyStr step.token) && needsAuth then
      let rec0 := executeRequest env lim now url options disableToast
        returnResponse (maxRetries - 1) (attempt + 1)
      (rec0.1, Event.waitAuth WAIT_FOR_AUTH_DELAY_MS :: rec0.2.1, rec0.2.2)
    else
      match step.fetchResult with
      | none =>
          (.error ("Error fetching " ++ url),
           Event.fetch url options maxRetries ::
             onFailEvents disableToast ("Error fetching " ++ url),
           lim)
      | some response =>
          let lim1 := RateLimiter.updateRateLimits lim response.headers now
          if response.status = 401 then
            if step.authSucceeds then
              let rec0 := executeRequest env lim1 now url options disableToast
                returnResponse (maxRetries - 1) (attempt + 1)
              (rec0.1,
               Event.fetch url options maxRetries ::
                 Event.limitsUpdate response.headers ::
                 Event.authCall true :: rec0.2.1,
               rec0.2.2)
            else
              (.error ("Error fetching " ++ url),
               [Event.fetch url options maxRetries,
                Event.limitsUpdate response.headers,
                Event.authCall true] ++
                 onFailEvents disableToast ("Error fetching " ++ url),
               lim1)
          else if response.status = 429 then
            let retryAfter :=
              jsParseInt (jsOrString response.headers.retryAfter "5")
            let rec0 := executeRequest env lim1 now url options disableToast
              returnResponse (maxRetries - 1) (attempt + 1)
            (rec0.1,
             Event.fetch url options maxRetries ::
               Event.limitsUpdate response.headers ::
               Event.sleep (jsMul retryAfter 1000) :: rec0.2.1,
             rec0.2.2)
          else if 400 ≤ response.status then
            (.error ("Error fetching " ++ url),
             Event.fetch url options maxRetries ::
               Event.limitsUpdate response.headers ::
               (onFailEvents disableToast
                 (toString response.status ++ " error while fetching " ++ url
                   ++ ": " ++ response.statusText) ++
                onFailEvents disableToast ("Error fetching " ++ url)),
             lim1)
          else if !response.ok then
            (.error ("Error fetching " ++ url),
             Event.fetch url options maxRetries ::
               Event.limitsUpdate response.headers ::
               (onFailEvents disableToast
                 ("Error fetching " ++ url ++ ": " ++ response.statusText) ++
                onFailEvents disableToast ("Error fetching " ++ url)),
             lim1)
          else if returnResponse then
            (.rawResponse response,
             [Event.fetch url options maxRetries,
              Event.limitsUpdate response.headers],
             lim1)
          else
            match response.jsonBody with
            | some d =>
                (.success d,
                 [Event.fetch url options maxRetries,
                  Event.limitsUpdate response.headers],
                 lim1)
            | none =>
                (.error ("Error fetching " ++ url),
                 Event.fetch url options maxRetries ::
                   Event.limitsUpdate response.headers ::
                   (onFailEvents disableToast ("Error parsing JSON from " ++ url) ++
                    onFailEvents disableToast ("Error fetching " ++ url)),
                 lim1)
termination_by (maxRetries + 1).toNat
decreasing_by all_goals (simp; omega)

/-- Number of network fetch attempts recorded in a trace. -/
def countFetchEvents (evs : List Event) : ℕ :=
  evs.countP (fun e => match e with | Event.fetch _ _ _ => true | _ => false)

/-- Number of auth-wait suspensions recorded in a trace. -/
def countWaitAuthEvents (evs : List Event) : ℕ :=
  evs.countP (fun e => match e with | Event.waitAuth _ => true | _ => false)

/-- One queued unit of work for the queue drain model: the outcomes of
its successive execute attempts are prescribed by the scenario: the
first remThrottles attempts reject with a 429 Response, after which it
succeeds or fails definitively. attemptsMade counts attempts already
run. -/
structure QUnit where
  id : ℕ
  remThrottles : ℕ
  succeeds : Bool
  attemptsMade : ℕ
deriving DecidableEq, Repr

/-- What one execute attempt of a queued unit did. -/
inductive AttemptOutcome where
  | throttled
  | success
  | failure
deriving DecidableEq, Repr

/-- One row of the queue execution trace: which unit ran, which attempt
this was for that unit (1 based), what happened, and whether its future
was settled at this step. -/
structure TraceEntry where
  id : ℕ
  attempt : ℕ
  outcome : AttemptOutcome
  settled : Bool
deriving DecidableEq, Repr

/-- RateLimiter.processQueue from the source: each loop iteration shifts
the head unit and executes it; a rejection that is a 429 Response
doubles backoffTime and unshifts the unit back onto the front of the
queue without settling its future; success resolves and any other
rejection rejects the future. The backoff sleeps of the loop only delay
execution and do not affect order, so they are not recorded in the
trace. -/
def processQueue (s : RateLimiterState) (queue : List QUnit) :
    List TraceEntry × RateLimiterState :=
  match queue with
  | [] => ([], s)
  | u :: rest =>
    if h : u.remThrottles = 0 then
      let entry : TraceEntry :=
        ⟨u.id, u.attemptsMade + 1,
         if u.succeeds then .success else .failure, true⟩
      let rec0 := processQueue s rest
      (entry :: rec0.1, rec0.2)
    else
      let s2 : RateLimiterState := { s with backoffTime := s.backoffTime * 2 }
      let u2 : QUnit := { u with remThrottles := u.remThrottles - 1,
                                 attemptsMade := u.attemptsMade + 1 }
      let entry : TraceEntry := ⟨u.id, u.attemptsMade + 1, .throttled, false⟩
      let rec0 := processQueue s2 (u2 :: rest)
      (entry :: rec0.1, rec0.2)
termination_by (queue.map (fun u => u.remThrottles + 1)).sum
decreasing_by all_goals (simp <;> omega)

/-- The five unauthenticated route prefixes exactly as the spec
enumerates them: the three options listings, the static configuration
document, and the OAuth callback endpoint. Stated from the spec wording
for comparison against the list the code uses. -/
def specUnauthedRoutePrefixes : List String :=
  ["/api/options/models", "/api/options/agents",
   "/api/options/security-analyzers", "/config.json", "/api/github/callback"]

/-- The key value cache of the facade: an association list keyed by
string, newest entry first; payloads are abstracted to strings. -/
abbrev CacheModel : Type := List (String × String)

/-- cache.get: the most recently set binding of the key, if any. -/
def CacheModel.get (c : CacheModel) (k : String) : Option String :=
  match List.find? (fun e => e.1 == k) c with
  | some e => some e.2
  | none => none

/-- cache.set: bind the key, shadowing older bindings. -/
def CacheModel.set (c : CacheModel) (k v : String) : CacheModel := (k, v) :: c

/-- cache.delete: drop every binding of the key. -/
def CacheModel.delete (c : CacheModel) (k : String) : CacheModel :=
  List.filter (fun e => !(e.1 == k)) c

/-- JavaScript String.split on a slash separator, on character lists:
the accumulator collects the current segment in reverse. An empty string
splits to one empty segment, as in JavaScript. -/
def splitSlashAux : List Char → List Char → List (List Char)
  | [], acc => [acc.reverse]
  | c :: rest, acc =>
      if c = '/' then acc.reverse :: splitSlashAux rest []
      else splitSlashAux rest (c :: acc)

/-- The JavaScript expression path.split on slash, slice dropping the
last element, join with slash: the directory part of a path. -/
def parentDirOf (path : String) : String :=
  String.mk (List.intercalate ['/'] ((splitSlashAux path.toList []).dropLast))

/-- Cache effect of OpenHands.saveFile: after the POST, delete the entry
of the file itself, the root listing, and the listing of the parent
directory of the path. The network call is a plain POST whose response
is returned unchanged, so only the cache effect is modelled. -/
def OpenHands.saveFileCache (c : CacheModel) (path _content : String) :
    CacheModel :=
  ((c.delete ("file:" ++ path)).delete "files:root").delete
    ("files:" ++ parentDirOf path)

/-- A File object as uploadFiles reads it. -/
structure FileModel where
  name : String
  webkitRelativePath : String
deriving DecidableEq, Repr

/-- The JavaScript expression f.webkitRelativePath or else f.name. -/
def FileModel.path (f : FileModel) : String :=
  if f.webkitRelativePath = "" then f.name else f.webkitRelativePath

/-- Body of the per-file loop of uploadFiles: delete the listing of the
directory part of the file path when that part is nonempty. -/
def deleteDirStep (acc : CacheModel) (f : FileModel) : CacheModel :=
  let dir := parentDirOf f.path
  if dir = "" then acc else acc.delete ("files:" ++ dir)

/-- Cache effect of OpenHands.uploadFiles: delete the root listing, then
for each uploaded file the listing of its directory part when nonempty. -/
def OpenHands.uploadFilesCache (c : CacheModel) (files : List FileModel) :
    CacheModel :=
  files.foldl deleteDirStep (c.delete "files:root")

/-- The directory listing keys uploadFilesCache deletes for the files. -/
def uploadDirKeys (files : List FileModel) : List String :=
  files.filterMap (fun f =>
    let dir := parentDirOf f.path
    if dir = "" then none else some ("files:" ++ dir))

/-- Result of a cached read endpoint: the value produced, the cache
afterwards, and whether the backend was called (cache miss) rather than
the value being served from cache. -/
structure ReadResult where
  value : String
  cacheAfter : CacheModel
  fetchedFromBackend : Bool

/-- OpenHands.getFile: serve from cache under the key file:path, else
fetch from the backend and store under that key. The request plumbing is
abstracted to the backend function: only the caching policy is
modelled here. -/
def OpenHands.getFile (c : CacheModel) (backend : String → String)
    (path : String) : ReadResult :=
  let cacheKey := "file:" ++ path
  match c.get cacheKey with
  | some v => ⟨v, c, false⟩
  | none =>
      let content := backend path
      ⟨content, c.set cacheKey content, true⟩

/-- Cache key of OpenHands.getFiles: files:path when the optional path
is truthy, else files:root. -/
def getFilesCacheKey (path : Option String) : String :=
  match path with
  | some p => if p = "" then "files:root" else "files:" ++ p
  | none => "files:root"

/-- OpenHands.getFiles: serve from cache under getFilesCacheKey, else
fetch the listing from the backend and store it. -/
def OpenHands.getFiles (c : CacheModel) (backend : Option String → String)
    (path : Option String) : ReadResult :=
  let cacheKey := getFilesCacheKey path
  match c.get cacheKey with
  | some v => ⟨v, c, false⟩
  | none =>
      let data := backend path
      ⟨data, c.set cacheKey data, true⟩

/-- Record read for an unallocated reference; the store reference of the
class is always allocated. -/
def defaultRLI : RateLimitInfo := ⟨JsNum.nan, JsNum.nan, JsNum.nan⟩

/-- A heap of RateLimitInfo objects addressed by allocation index. The
spread expression of the source allocates a fresh object whose three
fields are copied from the stored one, so copying is modelled as a fresh
allocation. -/
structure RLIHeap where
  objs : List RateLimitInfo
deriving DecidableEq, Repr

/-- Read the object at a reference. -/
def RLIHeap.read (h : RLIHeap) (r : ℕ) : RateLimitInfo :=
  h.objs.getD r defaultRLI

/-- Overwrite the object at a reference. -/
def RLIHeap.write (h : RLIHeap) (r : ℕ) (v : RateLimitInfo) : RLIHeap :=
  ⟨h.objs.set r v⟩

/-- Allocate a fresh object, returning its reference. -/
def RLIHeap.alloc (h : RLIHeap) (v : RateLimitInfo) : RLIHeap × ℕ :=
  (⟨h.objs ++ [v]⟩, h.objs.length)

/-- A field assignment applied to a RateLimitInfo object. -/
inductive FieldUpdate where
  | setRequestsRemaining (x : JsNum)
  | setResetTime (x : JsNum)
  | setTotalLimit (x : JsNum)
deriving DecidableEq, Repr

/-- Apply one field assignment to a record value. -/
def applyFieldUpdate (v : RateLimitInfo) : FieldUpdate → RateLimitInfo
  | .setRequestsRemaining x => { v with requestsRemaining := x }
  | .setResetTime x => { v with resetTime := x }
  | .setTotalLimit x => { v with totalLimit := x }

/-- Mutate one field of the object behind a reference. -/
def RLIHeap.mutate (h : RLIHeap) (r : ℕ) (u : FieldUpdate) : RLIHeap :=
  h.write r (applyFieldUpdate (h.read r) u)

/-- Apply a sequence of field mutations to the object behind a
reference. -/
def RLIHeap.mutateAll (h : RLIHeap) (r : ℕ) (us : List FieldUpdate) : RLIHeap :=
  us.foldl (fun acc u => acc.mutate r u) h

/-- OpenHands.getRateLimitStatus: return the spread copy of the stored
record, that is a freshly allocated object with the same three fields,
never the stored object itself. -/
def OpenHands.getRateLimitStatus (h : RLIHeap) (selfRef : ℕ) : RLIHeap × ℕ :=
  let v := h.read selfRef
  h.alloc
    { requestsRemaining := v.requestsRemaining
      resetTime := v.resetTime
      totalLimit := v.totalLimit }

/-- RateLimiter.getRateLimitInfo: the same spread copy of the limiter
record. -/
def RateLimiter.getRateLimitInfoCopy (h : RLIHeap) (selfRef : ℕ) :
    RLIHeap × ℕ :=
  let v := h.read selfRef
  h.alloc
    { requestsRemaining := v.requestsRemaining
      resetTime := v.resetTime
      totalLimit := v.totalLimit }

/-- Joint state of the two independent RateLimitInfo stores: the static
field of the OpenHands class and the state of the module level
rateLimiter instance. -/
structure SystemState where
  openHandsInfo : RateLimitInfo
  limiter : RateLimiterState
deriving DecidableEq, Repr

/-- One call through the exported request function, at system level: run
the executor against the limiter state. Neither request nor the
RateLimiter references the static store of the OpenHands class, and
OpenHands.updateRateLimitInfo has no call site in the source, so the
executor only threads the limiter component. -/
def request (env : Env) (now : ℤ) (url : String) (options : RequestInit)
    (disableToast returnResponse : Bool) (maxRetries : ℤ)
    (sys : SystemState) : ReqResult × List Event × SystemState :=
  let r := executeRequest env sys.limiter now url options disableToast
    returnResponse maxRetries 0
  (r.1, r.2.1, { sys with limiter := r.2.2 })

/-- OpenHands.updateRateLimitInfo: parses the three rate-limit headers
the same way the limiter does and replaces the static record. Defined in
the source but never invoked from anywhere. -/
def OpenHands.updateRateLimitInfo (headers : HeadersModel) (now : ℤ) :
    RateLimitInfo :=
  { requestsRemaining := jsParseInt (jsOrString headers.xRatelimitRemaining "Infinity")
    resetTime :=
      if jsTruthyStr headers.xRatelimitReset then
        jsMul (jsParseInt (headers.xRatelimitReset.getD "")) 1000
      else JsNum.val (now : ℚ)
    totalLimit := jsParseInt (jsOrString headers.xRatelimitLimit "Infinity") }

/-- OpenHands.checkRateLimit: request the rate limit endpoint with
toasts disabled; on success assign the parsed response to the static
store and return it; on a caught failure return the current stored
record (as getRateLimitStatus does) without touching the store. decode
stands for JSON decoding of the body into a RateLimitInfo. The
rawResponse case cannot occur because the call passes returnResponse
false. -/
def OpenHands.checkRateLimit (decode : String → RateLimitInfo) (env : Env)
    (now : ℤ) (sys : SystemState) : RateLimitInfo × SystemState :=
  let r := request env now "/api/rate-limit" defaultInit true false 3 sys
  match r.1 with
  | .success d => (decode d, { r.2.2 with openHandsInfo := decode d })
  | .rawResponse _ => (r.2.2.openHandsInfo, r.2.2)
  | .error _ => (r.2.2.openHandsInfo, r.2.2)

/-- Environment for the C2 counterexample: the token is present and the
single fetch returns 200 OK with no rate-limit headers. -/
def c2Env : Env := fun _ =>
  ⟨some "tok", none, some ⟨200, true, "OK", emptyHeaders, some "body"⟩, true⟩

/-- Environment for the C5 witness: attempt 0 gets a 401, attempt 1
succeeds. -/
def c5Env : Env := fun a =>
  if a = 0 then
    ⟨some "tok", none, some ⟨401, false, "Unauthorized", emptyHeaders, none⟩, true⟩
  else
    ⟨some "tok", none, some ⟨200, true, "OK", emptyHeaders, some "data1"⟩, true⟩

/-- Headers carrying only retry-after 2. -/
def retryAfter2Headers : HeadersModel := ⟨none, none, none, some "2"⟩

/-- Environment for the C6 witness: attempt 0 gets a 429 with
retry-after 2, attempt 1 succeeds. -/
def c6EnvW : Env := fun a =>
  if a = 0 then
    ⟨some "tok", none,
     some ⟨429, false, "Too Many Requests", retryAfter2Headers, none⟩, true⟩
  else
    ⟨some "tok", none, some ⟨200, true, "OK", emptyHeaders, some "data1"⟩, true⟩

/-- Environment with no token available at any attempt. -/
def noTokenEnv : Env := fun _ =>
  ⟨none, none, some ⟨200, true, "OK", emptyHeaders, some "body"⟩, true⟩

/-- System state for the C10 witness: distinct values in the two stores. -/
def c10Sys : SystemState :=
  ⟨⟨JsNum.val 9, JsNum.val 9, JsNum.val 9⟩,
   ⟨⟨JsNum.inf, JsNum.val 0, JsNum.inf⟩, 1000⟩⟩

/-- Fixed decoder for the C10 witness. -/
def c10Decode : String → RateLimitInfo :=
  fun _ => ⟨JsNum.val 1, JsNum.val 2, JsNum.val 3⟩

/-- Step equation: budget below 0 fails immediately. -/
theorem executeRequest_stepBudget (env : Env) (lim : RateLimiterState)
    (now : ℤ) (url : String) (options : RequestInit) (dt rr : Bool)
    (m : ℤ) (a : ℕ) (h0 : m < 0) :
    executeRequest env lim now url options dt rr m a =
      (.error "Max retries exceeded", [], lim) := by
  rw [executeRequest.eq_def]; simp [h0]

/-- Step equation: authentication required, no token yet: wait and retry
with the budget decremented. -/
theorem executeRequest_stepWait (env : Env) (lim : RateLimiterState)
    (now : ℤ) (url : String) (options : RequestInit) (dt rr : Bool)
    (m : ℤ) (a : ℕ) (h0 : ¬ m < 0)
    (hcond : (!jsTruthyStr (env a).token && needsAuthFor url) = true) :
    executeRequest env lim now url options dt rr m a =
      ((executeRequest env lim now url options dt rr (m - 1) (a + 1)).1,
       Event.waitAuth WAIT_FOR_AUTH_DELAY_MS ::
         (executeRequest env lim now url options dt rr (m - 1) (a + 1)).2.1,
       (executeRequest env lim now url options dt rr (m - 1) (a + 1)).2.2) := by
  rw [executeRequest.eq_def]; simp [h0, hcond]

/-- Step equation: the fetch throws a network error. -/
theorem executeRequest_stepNoFetch (env : Env) (lim : RateLimiterState)
    (now : ℤ) (url : String) (options : RequestInit) (dt rr : Bool)
    (m : ℤ) (a : ℕ) (h0 : ¬ m < 0)
    (hcond : ¬ (!jsTruthyStr (env a).token && needsAuthFor url) = true)
    (hfetch : (env a).fetchResult = none) :
    executeRequest env lim now url options dt rr m a =
      (.error ("Error fetching " ++ url),
       Event.fetch url options m ::
         onFailEvents dt ("Error fetching " ++ url),
       lim) := by
  rw [executeRequest.eq_def]; simp [h0, hcond, hfetch]

/-- Step equation: a 401 response with a succeeding nested authenticate
call: one suppressed authenticate, then retry of the same url and
options with the budget decremented. -/
theorem executeRequest_step401 (env : Env) (lim : RateLimiterState)
    (now : ℤ) (url : String) (options : RequestInit) (dt rr : Bool)
    (m : ℤ) (a : ℕ) (response : ResponseModel) (h0 : ¬ m < 0)
    (hcond : ¬ (!jsTruthyStr (env a).token && needsAuthFor url) = true)
    (hfetch : (env a).fetchResult = some response)
    (h401 : response.status = 401) (hauth : (env a).authSucceeds = true) :
    executeRequest env lim now url options dt rr m a =
      ((executeRequest env (RateLimiter.updateRateLimits lim response.headers now)
          now url options dt rr (m - 1) (a + 1)).1,
       Event.fetch url options m ::
         Event.limitsUpdate response.headers ::
         Event.authCall true ::
         (executeRequest env (RateLimiter.updateRateLimits lim response.headers now)
            now url options dt rr (m - 1) (a + 1)).2.1,
       (executeRequest env (RateLimiter.updateRateLimits lim response.headers now)
          now url options dt rr (m - 1) (a + 1)).2.2) := by
  rw [executeRequest.eq_def]; simp [h0, hcond, hfetch, h401, hauth]

/-- Step equation: a 401 response whose nested authenticate call fails:
the failure propagates through the catch block. -/
theorem executeRequest_step401Fail (env : Env) (lim : RateLimiterState)
    (now : ℤ) (url : String) (options : RequestInit) (dt rr : Bool)
    (m : ℤ) (a : ℕ) (response : ResponseModel) (h0 : ¬ m < 0)
    (hcond : ¬ (!jsTruthyStr (env a).token && needsAuthFor url) = true)
    (hfetch : (env a).fetchResult = some response)
    (h401 : response.status = 401) (hauth : ¬ (env a).authSucceeds = true) :
    executeRequest env lim now url options dt rr m a =
      (.error ("Error fetching " ++ url),
       [Event.fetch url options m, Event.limitsUpdate response.headers,
        Event.authCall true] ++ onFailEvents dt ("Error fetching " ++ url),
       RateLimiter.updateRateLimits lim response.headers now) := by
  rw [executeRequest.eq_def]; simp [h0, hcond, hfetch, h401, hauth]

/-- Step equation: a 429 response: read retry-after (default the string
5), sleep that many seconds, retry with the budget decremented. -/
theorem executeRequest_step429 (env : Env) (lim : RateLimiterState)
    (now : ℤ) (url : String) (options : RequestInit) (dt rr : Bool)
    (m : ℤ) (a : ℕ) (response : ResponseModel) (h0 : ¬ m < 0)
    (hcond : ¬ (!jsTruthyStr (env a).token && needsAuthFor url) = true)
    (hfetch : (env a).fetchResult = some response)
    (h429 : response.status = 429) :
    executeRequest env lim now url options dt rr m a =
      ((executeRequest env (RateLimiter.updateRateLimits lim response.headers now)
          now url options dt rr (m - 1) (a + 1)).1,
       Event.fetch url options m ::
         Event.limitsUpdate response.headers ::
         Event.sleep (jsMul (jsParseInt (jsOrString response.headers.retryAfter "5")) 1000) ::
         (executeRequest env (RateLimiter.updateRateLimits lim response.headers now)
            now url options dt rr (m - 1) (a + 1)).2.1,
       (executeRequest env (RateLimiter.updateRateLimits lim response.headers now)
          now url options dt rr (m - 1) (a + 1)).2.2) := by
  rw [executeRequest.eq_def]; simp [h0, hcond, hfetch, h429]

/-- Step equation: a client or server error status of at least 400 other
than 401 and 429 fails through onFail and the catch block. -/
theorem executeRequest_step400 (env : Env) (lim : RateLimiterState)
    (now : ℤ) (url : String) (options : RequestInit) (dt rr : Bool)
    (m : ℤ) (a : ℕ) (response : ResponseModel) (h0 : ¬ m < 0)
    (hcond : ¬ (!jsTruthyStr (env a).token && needsAuthFor url) = true)
    (hfetch : (env a).fetchResult = some response)
    (h401 : ¬ response.status = 401) (h429 : ¬ response.status = 429)
    (h400 : 400 ≤ response.status) :
    executeRequest env lim now url options dt rr m a =
      (.error ("Error fetching " ++ url),
       Event.fetch url options m ::
         Event.limitsUpdate response.headers ::
         (onFailEvents dt (toString response.status ++ " error while fetching "
             ++ url ++ ": " ++ response.statusText) ++
          onFailEvents dt ("Error fetching " ++ url)),
       RateLimiter.updateRateLimits lim response.headers now) := by
  rw [executeRequest.eq_def]; simp [h0, hcond, hfetch, h401, h429, h400]

/-- Step equation: status below 400 but response not ok. -/
theorem executeRequest_stepNotOk (env : Env) (lim : RateLimiterState)
    (now : ℤ) (url : String) (options : RequestInit) (dt rr : Bool)
    (m : ℤ) (a : ℕ) (response : ResponseModel) (h0 : ¬ m < 0)
    (hcond : ¬ (!jsTruthyStr (env a).token && needsAuthFor url) = true)
    (hfetch : (env a).fetchResult = some response)
    (h401 : ¬ response.status = 401) (h429 : ¬ response.status = 429)
    (h400 : ¬ 400 ≤ response.status) (hok : response.ok = false) :
    executeRequest env lim now url options dt rr m a =
      (.error ("Error fetching " ++ url),
       Event.fetch url options m ::
         Event.limitsUpdate response.headers ::
         (onFailEvents dt ("Error fetching " ++ url ++ ": " ++ response.statusText) ++
          onFailEvents dt ("Error fetching " ++ url)),
       RateLimiter.updateRateLimits lim response.headers now) := by
  rw [executeRequest.eq_def]; simp [h0, hcond, hfetch, h401, h429, h400, hok]

/-- Step equation: success with the raw response flag set. -/
theorem executeRequest_stepRaw (env : Env) (lim : RateLimiterState)
    (now : ℤ) (url : String) (options : RequestInit) (dt : Bool)
    (m : ℤ) (a : ℕ) (response : ResponseModel) (h0 : ¬ m < 0)
    (hcond : ¬ (!jsTruthyStr (env a).token && needsAuthFor url) = true)
    (hfetch : (env a).fetchResult = some response)
    (h401 : ¬ response.status = 401) (h429 : ¬ response.status = 429)
    (h400 : ¬ 400 ≤ response.status) (hok : response.ok = true) :
    executeRequest env lim now url options dt true m a =
      (.rawResponse response,
       [Event.fetch url options m, Event.limitsUpdate response.headers],
       RateLimiter.updateRateLimits lim response.headers now) := by
  rw [executeRequest.eq_def]; simp [h0, hcond, hfetch, h401, h429, h400, hok]

/-- Step equation: success with a parsed JSON body. -/
theorem executeRequest_stepJson (env : Env) (lim : RateLimiterState)
    (now : ℤ) (url : String) (options : RequestInit) (dt : Bool)
    (m : ℤ) (a : ℕ) (response : ResponseModel) (d : String) (h0 : ¬ m < 0)
    (hcond : ¬ (!jsTruthyStr (env a).token && needsAuthFor url) = true)
    (hfetch : (env a).fetchResult = some response)
    (h401 : ¬ response.status = 401) (h429 : ¬ response.status = 429)
    (h400 : ¬ 400 ≤ response.status) (hok : response.ok = true)
    (hjson : response.jsonBody = some d) :
    executeRequest env lim now url options dt false m a =
      (.success d,
       [Event.fetch url options m, Event.limitsUpdate response.headers],
       RateLimiter.updateRateLimits lim response.headers now) := by
  rw [executeRequest.eq_def]; simp [h0, hcond, hfetch, h401, h429, h400, hok, hjson]

/-- Step equation: success status but the JSON body fails to parse. -/
theorem executeRequest_stepJsonFail (env : Env) (lim : RateLimiterState)
    (now : ℤ) (url : String) (options : RequestInit) (dt : Bool)
    (m : ℤ) (a : ℕ) (response : ResponseModel) (h0 : ¬ m < 0)
    (hcond : ¬ (!jsTruthyStr (env a).token && needsAuthFor url) = true)
    (hfetch : (env a).fetchResult = some response)
    (h401 : ¬ response.status = 401) (h429 : ¬ response.status = 429)
    (h400 : ¬ 400 ≤ response.status) (hok : response.ok = true)
    (hjson : response.jsonBody = none) :
    executeRequest env lim now url options dt false m a =
      (.error ("Error fetching " ++ url),
       Event.fetch url options m ::
         Event.limitsUpdate response.headers ::
         (onFailEvents dt ("Error parsing JSON from " ++ url) ++
          onFailEvents dt ("Error fetching " ++ url)),
       RateLimiter.updateRateLimits lim response.headers now) := by
  rw [executeRequest.eq_def]; simp [h0, hcond, hfetch, h401, h429, h400, hok, hjson]

/-- Step equation: the drain loop exits on an empty queue. -/
theorem processQueue_nil (s : RateLimiterState) : processQueue s [] = ([], s) := by
  rw [processQueue.eq_def]

/-- Step equation: a unit that is not throttled on this attempt settles
and the loop continues with the rest of the queue. -/
theorem processQueue_cons_done (s : RateLimiterState) (u : QUnit)
    (rest : List QUnit) (h : u.remThrottles = 0) :
    processQueue s (u :: rest) =
      (⟨u.id, u.attemptsMade + 1,
          if u.succeeds then .success else .failure, true⟩ ::
        (processQueue s rest).1,
       (processQueue s rest).2) := by
  rw [processQueue.eq_def]; simp [h]

/-- Step equation: a throttled unit doubles backoffTime and is unshifted
back onto the front of the queue without settling. -/
theorem processQueue_cons_throttled (s : RateLimiterState) (u : QUnit)
    (rest : List QUnit) (h : ¬ u.remThrottles = 0) :
    processQueue s (u :: rest) =
      (⟨u.id, u.attemptsMade + 1, .throttled, false⟩ ::
        (processQueue { s with backoffTime := s.backoffTime * 2 }
          ({ u with remThrottles := u.remThrottles - 1,
                    attemptsMade := u.attemptsMade + 1 } :: rest)).1,
       (processQueue { s with backoffTime := s.backoffTime * 2 }
          ({ u with remThrottles := u.remThrottles - 1,
                    attemptsMade := u.attemptsMade + 1 } :: rest)).2) := by
  rw [processQueue.eq_def]; simp [h]

/-- C1: the backoff computation is the step function of the spec: 0 when
the remaining quota is unbounded; otherwise, with pct the exact remaining
fraction, 0 when pct is above one half, the base time for pct in the
interval from one fifth to one half, twice the base for pct in the
interval from one tenth to one fifth, and four times the base at or below
one tenth; the base time is 1000 ms at construction. -/
theorem C1_backoff_step_function (s : RateLimiterState) :
    (s.rateLimitInfo.requestsRemaining = JsNum.inf →
      RateLimiter.calculateBackoff s = 0) ∧
    (∀ r t : ℚ, s.rateLimitInfo.requestsRemaining = JsNum.val r →
      s.rateLimitInfo.totalLimit = JsNum.val t → 0 < t →
      ((1/2 < r / t → RateLimiter.calculateBackoff s = 0) ∧
       (1/5 < r / t → r / t ≤ 1/2 →
         RateLimiter.calculateBackoff s = s.backoffTime) ∧
       (1/10 < r / t → r / t ≤ 1/5 →
         RateLimiter.calculateBackoff s = s.backoffTime * 2) ∧
       (r / t ≤ 1/10 →
         RateLimiter.calculateBackoff s = s.backoffTime * 4))) ∧
    (∀ constructedAt : ℤ,
      (RateLimiter.initState constructedAt).backoffTime = 1000) := by
  refine ⟨fun h => ?_, fun r t hr ht ht0 => ?_, fun _ => rfl⟩
  · simp [RateLimiter.calculateBackoff, h]
  · have hne : t ≠ 0 := ne_of_gt ht0
    refine ⟨fun h1 => ?_, fun h1 h2 => ?_, fun h1 h2 => ?_, fun h1 => ?_⟩ <;>
        simp only [RateLimiter.calculateBackoff, hr, ht, jsDiv, if_neg hne,
          jsGt, decide_eq_true_eq]
    · rw [if_neg (by simp), if_pos (by exact h1)]
    · rw [if_neg (by simp), if_neg (by push_neg; linarith), if_pos (by exact h1)]
    · rw [if_neg (by simp), if_neg (by push_neg; linarith),
        if_neg (by push_neg; linarith), if_pos (by exact h1)]
    · rw [if_neg (by simp), if_neg (by push_neg; linarith),
        if_neg (by push_neg; linarith), if_neg (by push_neg; linarith)]

theorem C1_backoff_step_function_witness :
    RateLimiter.calculateBackoff
      ⟨⟨JsNum.val 30, JsNum.val 0, JsNum.val 100⟩, 1000⟩ = 1000 := by
  have h :=
    (C1_backoff_step_function
        ⟨⟨JsNum.val 30, JsNum.val 0, JsNum.val 100⟩, 1000⟩).2.1
      30 100 rfl rfl (by norm_num)
  exact h.2.1 (by norm_num) (by norm_num)

/-- C2 counterexample: processing a successful response that carries no
rate-limit headers does not leave the stored RateLimitInfo unchanged:
the stored record of 42 remaining out of 100 is overwritten. -/
theorem C2_missing_headers_counterexample :
    ((executeRequest c2Env ⟨⟨JsNum.val 42, JsNum.val 0, JsNum.val 100⟩, 1000⟩
        5000 "/api/x" defaultInit false false 3 0).2.2).rateLimitInfo
      ≠ ⟨JsNum.val 42, JsNum.val 0, JsNum.val 100⟩ := by
  rw [executeRequest_stepJson c2Env
      ⟨⟨JsNum.val 42, JsNum.val 0, JsNum.val 100⟩, 1000⟩ 5000 "/api/x"
      defaultInit false 3 0 ⟨200, true, "OK", emptyHeaders, some "body"⟩ "body"
      (by decide) (by decide) rfl (by decide) (by decide) (by decide) rfl rfl]
  decide

/-- C2 amended: request forwards the headers of every response to
updateRateLimits, which overwrites the stored RateLimitInfo
unconditionally; when the three rate-limit headers are absent the record
becomes NaN remaining, the current time as resetTime, and NaN limit
(parseInt of the Infinity fallback is NaN), rather than being left
untouched. -/
theorem C2_amended_every_response_overwrites (s : RateLimiterState)
    (h : HeadersModel) (now : ℤ)
    (h1 : h.xRatelimitRemaining = none) (h2 : h.xRatelimitReset = none)
    (h3 : h.xRatelimitLimit = none) :
    (RateLimiter.updateRateLimits s h now).rateLimitInfo =
      ⟨JsNum.nan, JsNum.val (now : ℚ), JsNum.nan⟩ := by
  have hInf : jsParseInt "Infinity" = JsNum.nan := by decide
  simp [RateLimiter.updateRateLimits, h1, h2, h3, jsOrString, jsTruthyStr, hInf]

theorem C2_amended_every_response_overwrites_witness :
    (RateLimiter.updateRateLimits
        ⟨⟨JsNum.val 42, JsNum.val 0, JsNum.val 100⟩, 1000⟩
        emptyHeaders 5000).rateLimitInfo =
      ⟨JsNum.nan, JsNum.val 5000, JsNum.nan⟩ :=
  C2_amended_every_response_overwrites
    ⟨⟨JsNum.val 42, JsNum.val 0, JsNum.val 100⟩, 1000⟩
    emptyHeaders 5000 rfl rfl rfl

/-- C3: units drain in FIFO order (for any queue of units none of which
is throttled, the execution order is the enqueue order), and in the spec
scenario with unit A enqueued before unit B, where A is throttled once
and then succeeds, the order is A attempt 1 throttled and not settled, A
attempt 2 success settled, then B: the throttled unit is requeued at the
front without settling its future. -/
theorem C3_fifo_with_throttled_requeued_at_front :
    (∀ (s : RateLimiterState) (q : List QUnit),
      (∀ u ∈ q, u.remThrottles = 0) →
      (processQueue s q).1.map TraceEntry.id = q.map QUnit.id) ∧
    (processQueue ⟨⟨JsNum.inf, JsNum.val 0, JsNum.inf⟩, 1000⟩
        [⟨0, 1, true, 0⟩, ⟨1, 0, true, 0⟩]).1 =
      [⟨0, 1, AttemptOutcome.throttled, false⟩,
       ⟨0, 2, AttemptOutcome.success, true⟩,
       ⟨1, 1, AttemptOutcome.success, true⟩] := by
  refine ⟨?_, by simp [processQueue]⟩
  intro s q
  induction q generalizing s with
  | nil => intro _; simp [processQueue]
  | cons u rest ih =>
      intro hall
      have hu : u.remThrottles = 0 := hall u (by simp)
      rw [processQueue_cons_done s u rest hu]
      simp only [List.map_cons]
      exact congrArg (u.id :: ·) (ih s (fun v hv => hall v (by simp [hv])))

theorem C3_fifo_with_throttled_requeued_at_front_witness :
    (processQueue ⟨⟨JsNum.inf, JsNum.val 0, JsNum.inf⟩, 1000⟩
        [⟨5, 0, true, 0⟩, ⟨7, 0, false, 0⟩, ⟨9, 0, true, 0⟩]).1.map
        TraceEntry.id = [5, 7, 9] :=
  C3_fifo_with_throttled_requeued_at_front.1
    ⟨⟨JsNum.inf, JsNum.val 0, JsNum.inf⟩, 1000⟩
    [⟨5, 0, true, 0⟩, ⟨7, 0, false, 0⟩, ⟨9, 0, true, 0⟩] (by decide)

/-- C4: the retry budget is a hard ceiling: a call whose remaining
budget is below 0 fails with the Max retries exceeded error, and the
number of network attempts of a call never exceeds budget plus one, so
auth waits, 401 retries and 429 retries cannot recurse indefinitely. -/
theorem C4_retry_budget_is_hard_ceiling (env : Env) (lim : RateLimiterState)
    (now : ℤ) (url : String) (options : RequestInit)
    (disableToast returnResponse : Bool) (maxRetries : ℤ) (attempt : ℕ) :
    (maxRetries < 0 →
      (executeRequest env lim now url options disableToast returnResponse
          maxRetries attempt).1 = ReqResult.error "Max retries exceeded") ∧
    countFetchEvents (executeRequest env lim now url options disableToast
        returnResponse maxRetries attempt).2.1 ≤ (maxRetries + 1).toNat := by
  induction lim, now, url, options, disableToast, returnResponse, maxRetries,
    attempt using executeRequest.induct with
  | env => exact env
  | case1 lim now url options dt rr m a h0 =>
      rw [executeRequest_stepBudget env lim now url options dt rr m a h0]
      exact ⟨fun _ => rfl, by simp [countFetchEvents]⟩
  | case2 lim now url options dt rr m a h0 needsAuth step hcond ih =>
      rw [executeRequest_stepWait env lim now url options dt rr m a h0 hcond]
      refine ⟨fun hneg => absurd hneg h0, ?_⟩
      have hrec := ih.2
      simp +decide [countFetchEvents, List.countP_cons] at hrec ⊢
      omega
  | case3 lim now url options dt rr m a h0 needsAuth step hcond hfetch =>
      rw [executeRequest_stepNoFetch env lim now url options dt rr m a h0 hcond
        hfetch]
      refine ⟨fun hneg => absurd hneg h0, ?_⟩
      cases dt <;>
        simp +decide [countFetchEvents, onFailEvents, List.countP_cons,
          List.countP_nil] <;> omega
  | case4 lim now url options dt rr m a h0 needsAuth step hcond response hfetch
      lim1 h401 hauth ih =>
      rw [executeRequest_step401 env lim now url options dt rr m a response h0
        hcond hfetch h401 hauth]
      refine ⟨fun hneg => absurd hneg h0, ?_⟩
      have hrec := ih.2
      unfold lim1 at hrec
      simp +decide [countFetchEvents, List.countP_cons] at hrec ⊢
      omega
  | case5 lim now url options dt rr m a h0 needsAuth step hcond response hfetch
      h401 hauth =>
      rw [executeRequest_step401Fail env lim now url options dt rr m a response
        h0 hcond hfetch h401 hauth]
      refine ⟨fun hneg => absurd hneg h0, ?_⟩
      cases dt <;>
        simp +decide [countFetchEvents, onFailEvents, List.countP_cons,
          List.countP_nil] <;> omega
  | case6 lim now url options dt rr m a h0 needsAuth step hcond response hfetch
      lim1 h401 h429 ih =>
      rw [executeRequest_step429 env lim now url options dt rr m a response h0
        hcond hfetch h429]
      refine ⟨fun hneg => absurd hneg h0, ?_⟩
      have hrec := ih.2
      unfold lim1 at hrec
      simp +decide [countFetchEvents, List.countP_cons] at hrec ⊢
      omega
  | case7 lim now url options dt rr m a h0 needsAuth step hcond response hfetch
      h401 h429 h400 =>
      rw [executeRequest_step400 env lim now url options dt rr m a response h0
        hcond hfetch h401 h429 h400]
      refine ⟨fun hneg => absurd hneg h0, ?_⟩
      cases dt <;>
        simp +decide [countFetchEvents, onFailEvents, List.countP_cons,
          List.countP_nil] <;> omega
  | case8 lim now url options dt rr m a h0 needsAuth step hcond response hfetch
      h401 h429 h400 hnotok =>
      rw [executeRequest_stepNotOk env lim now url options dt rr m a response h0
        hcond hfetch h401 h429 h400 (by simpa using hnotok)]
      refine ⟨fun hneg => absurd hneg h0, ?_⟩
      cases dt <;>
        simp +decide [countFetchEvents, onFailEvents, List.countP_cons,
          List.countP_nil] <;> omega
  | case9 lim now url options dt m a h0 needsAuth step hcond response hfetch
      h401 h429 h400 hok =>
      rw [executeRequest_stepRaw env lim now url options dt m a response h0
        hcond hfetch h401 h429 h400 (by simpa using hok)]
      refine ⟨fun hneg => absurd hneg h0, ?_⟩
      simp +decide [countFetchEvents, List.countP_cons, List.countP_nil]
      omega
  | case10 lim now url options dt rr m a h0 needsAuth step hcond response hfetch
      h401 h429 h400 hok hrr d hjson =>
      have hrr0 : rr = false := by simpa using hrr
      subst hrr0
      rw [executeRequest_stepJson env lim now url options dt m a response d h0
        hcond hfetch h401 h429 h400 (by simpa using hok) hjson]
      refine ⟨fun hneg => absurd hneg h0, ?_⟩
      simp +decide [countFetchEvents, List.countP_cons, List.countP_nil]
      omega
  | case11 lim now url options dt rr m a h0 needsAuth step hcond response hfetch
      h401 h429 h400 hok hrr hjson =>
      have hrr0 : rr = false := by simpa using hrr
      subst hrr0
      rw [executeRequest_stepJsonFail env lim now url options dt m a response h0
        hcond hfetch h401 h429 h400 (by simpa using hok) hjson]
      refine ⟨fun hneg => absurd hneg h0, ?_⟩
      cases dt <;>
        simp +decide [countFetchEvents, onFailEvents, List.countP_cons,
          List.countP_nil] <;> omega

theorem C4_retry_budget_is_hard_ceiling_witness :
    (executeRequest c2Env ⟨⟨JsNum.inf, JsNum.val 0, JsNum.inf⟩, 1000⟩ 0
        "/api/x" defaultInit false false (-1) 0).1 =
      ReqResult.error "Max retries exceeded" :=
  (C4_retry_budget_is_hard_ceiling c2Env ⟨⟨JsNum.inf, JsNum.val 0, JsNum.inf⟩,
      1000⟩ 0 "/api/x" defaultInit false false (-1) 0).1 (by decide)

/-- C5: a response with status 401 triggers exactly one nested
authenticate call with notifications suppressed, followed by exactly one
retry of the original call with the same url and options and the retry
budget decremented by one: when the retried attempt succeeds, the whole
call performs exactly the five events fetch, limiter update, suppressed
authenticate, retry fetch of the same url and options at budget m minus
one, limiter update, and returns the retried result. -/
theorem C5_401_one_silent_reauth_one_retry (env : Env) (lim : RateLimiterState)
    (now : ℤ) (url : String) (options : RequestInit) (dt : Bool) (m : ℤ)
    (r0 r1 : ResponseModel) (d : String) (hm : 0 ≤ m - 1)
    (htok0 : jsTruthyStr (env 0).token = true)
    (hfetch0 : (env 0).fetchResult = some r0)
    (h401 : r0.status = 401)
    (hauth : (env 0).authSucceeds = true)
    (htok1 : jsTruthyStr (env 1).token = true)
    (hfetch1 : (env 1).fetchResult = some r1)
    (hr1a : ¬ r1.status = 401) (hr1b : ¬ r1.status = 429)
    (hr1c : ¬ 400 ≤ r1.status) (hr1ok : r1.ok = true)
    (hr1json : r1.jsonBody = some d) :
    executeRequest env lim now url options dt false m 0 =
      (.success d,
       [Event.fetch url options m,
        Event.limitsUpdate r0.headers,
        Event.authCall true,
        Event.fetch url options (m - 1),
        Event.limitsUpdate r1.headers],
       RateLimiter.updateRateLimits
         (RateLimiter.updateRateLimits lim r0.headers now) r1.headers now) := by
  rw [executeRequest_step401 env lim now url options dt false m 0 r0
    (by omega) (by simp [htok0]) hfetch0 h401 hauth]
  rw [executeRequest_stepJson env
    (RateLimiter.updateRateLimits lim r0.headers now) now url options dt (m - 1)
    1 r1 d (by omega) (by simp [htok1]) hfetch1 hr1a hr1b hr1c hr1ok hr1json]

theorem C5_401_one_silent_reauth_one_retry_witness :
    executeRequest c5Env ⟨⟨JsNum.inf, JsNum.val 0, JsNum.inf⟩, 1000⟩ 7 "/api/y"
        defaultInit false false 3 0 =
      (.success "data1",
       [Event.fetch "/api/y" defaultInit 3,
        Event.limitsUpdate emptyHeaders,
        Event.authCall true,
        Event.fetch "/api/y" defaultInit 2,
        Event.limitsUpdate emptyHeaders],
       RateLimiter.updateRateLimits
         (RateLimiter.updateRateLimits ⟨⟨JsNum.inf, JsNum.val 0, JsNum.inf⟩,
           1000⟩ emptyHeaders 7) emptyHeaders 7) :=
  C5_401_one_silent_reauth_one_retry c5Env
    ⟨⟨JsNum.inf, JsNum.val 0, JsNum.inf⟩, 1000⟩ 7 "/api/y" defaultInit false 3
    ⟨401, false, "Unauthorized", emptyHeaders, none⟩
    ⟨200, true, "OK", emptyHeaders, some "data1"⟩ "data1"
    (by decide) rfl rfl rfl rfl rfl rfl (by decide) (by decide) (by decide)
    rfl rfl

/-- C6: a response with status 429 makes the executor read the
retry-after header, defaulting to the string 5 when the header is null
or empty, sleep that many thousand milliseconds, and retry the original
call with the budget decremented by one: when the retried attempt
succeeds the whole call performs exactly fetch, limiter update, the
sleep, retry fetch at budget m minus one, limiter update. A retry-after
of 2 sleeps 2000 ms and an absent header sleeps 5000 ms. -/
theorem C6_429_retry_after_sleep_then_retry (env : Env)
    (lim : RateLimiterState) (now : ℤ) (url : String) (options : RequestInit)
    (dt : Bool) (m : ℤ) (r0 r1 : ResponseModel) (d : String) (hm : 0 ≤ m - 1)
    (htok0 : jsTruthyStr (env 0).token = true)
    (hfetch0 : (env 0).fetchResult = some r0)
    (h429 : r0.status = 429)
    (htok1 : jsTruthyStr (env 1).token = true)
    (hfetch1 : (env 1).fetchResult = some r1)
    (hr1a : ¬ r1.status = 401) (hr1b : ¬ r1.status = 429)
    (hr1c : ¬ 400 ≤ r1.status) (hr1ok : r1.ok = true)
    (hr1json : r1.jsonBody = some d) :
    (executeRequest env lim now url options dt false m 0 =
      (.success d,
       [Event.fetch url options m,
        Event.limitsUpdate r0.headers,
        Event.sleep (jsMul (jsParseInt
          (jsOrString r0.headers.retryAfter "5")) 1000),
        Event.fetch url options (m - 1),
        Event.limitsUpdate r1.headers],
       RateLimiter.updateRateLimits
         (RateLimiter.updateRateLimits lim r0.headers now) r1.headers now)) ∧
    jsMul (jsParseInt (jsOrString (some "2") "5")) 1000 = JsNum.val 2000 ∧
    jsMul (jsParseInt (jsOrString none "5")) 1000 = JsNum.val 5000 := by
  have h2 : jsParseInt (jsOrString (some "2") "5") = JsNum.val 2 := by decide
  have h5 : jsParseInt (jsOrString none "5") = JsNum.val 5 := by decide
  refine ⟨?_, by rw [h2]; show JsNum.val (2 * 1000) = _; norm_num,
    by rw [h5]; show JsNum.val (5 * 1000) = _; norm_num⟩
  rw [executeRequest_step429 env lim now url options dt false m 0 r0
    (by omega) (by simp [htok0]) hfetch0 h429]
  rw [executeRequest_stepJson env
    (RateLimiter.updateRateLimits lim r0.headers now) now url options dt (m - 1)
    1 r1 d (by omega) (by simp [htok1]) hfetch1 hr1a hr1b hr1c hr1ok hr1json]

theorem C6_429_retry_after_sleep_then_retry_witness :
    executeRequest c6EnvW ⟨⟨JsNum.inf, JsNum.val 0, JsNum.inf⟩, 1000⟩ 7 "/api/y"
        defaultInit false false 3 0 =
      (.success "data1",
       [Event.fetch "/api/y" defaultInit 3,
        Event.limitsUpdate retryAfter2Headers,
        Event.sleep (JsNum.val 2000),
        Event.fetch "/api/y" defaultInit 2,
        Event.limitsUpdate emptyHeaders],
       RateLimiter.updateRateLimits
         (RateLimiter.updateRateLimits ⟨⟨JsNum.inf, JsNum.val 0, JsNum.inf⟩,
           1000⟩ retryAfter2Headers 7) emptyHeaders 7) := by
  have h := (C6_429_retry_after_sleep_then_retry c6EnvW
    ⟨⟨JsNum.inf, JsNum.val 0, JsNum.inf⟩, 1000⟩ 7 "/api/y" defaultInit false 3
    ⟨429, false, "Too Many Requests", retryAfter2Headers, none⟩
    ⟨200, true, "OK", emptyHeaders, some "data1"⟩ "data1"
    (by decide) rfl rfl rfl rfl rfl (by decide) (by decide) (by decide)
    rfl rfl).1
  have h2 : jsParseInt (jsOrString retryAfter2Headers.retryAfter "5") =
      JsNum.val 2 := by decide
  have h3 : jsMul (jsParseInt (jsOrString retryAfter2Headers.retryAfter "5"))
      1000 = JsNum.val 2000 := by
    rw [h2]; show JsNum.val (2 * 1000) = _; norm_num
  rw [h]
  simp [h3]

/-- If a url does not need authentication, no attempt of its call ever
records an auth wait, whatever the environment, budget and flags. -/
theorem countWaitAuth_zero_of_unauthed (env : Env) (lim : RateLimiterState)
    (now : ℤ) (url : String) (options : RequestInit) (dt rr : Bool)
    (m : ℤ) (a : ℕ) (hna : needsAuthFor url = false) :
    countWaitAuthEvents
      (executeRequest env lim now url options dt rr m a).2.1 = 0 := by
  revert hna
  induction lim, now, url, options, dt, rr, m, a using executeRequest.induct with
  | env => exact env
  | case1 lim now url options dt rr m a h0 =>
      intro _
      rw [executeRequest_stepBudget env lim now url options dt rr m a h0]
      simp [countWaitAuthEvents]
  | case2 lim now url options dt rr m a h0 needsAuth step hcond ih =>
      intro hna
      unfold needsAuth at hcond
      rw [hna, Bool.and_false] at hcond
      exact absurd hcond (by simp)
  | case3 lim now url options dt rr m a h0 needsAuth step hcond hfetch =>
      intro _
      rw [executeRequest_stepNoFetch env lim now url options dt rr m a h0 hcond
        hfetch]
      cases dt <;> simp +decide [countWaitAuthEvents, onFailEvents,
        List.countP_cons, List.countP_nil]
  | case4 lim now url options dt rr m a h0 needsAuth step hcond response hfetch
      lim1 h401 hauth ih =>
      intro hna
      rw [executeRequest_step401 env lim now url options dt rr m a response h0
        hcond hfetch h401 hauth]
      have hrec := ih hna
      unfold lim1 at hrec
      simp +decide [countWaitAuthEvents, List.countP_cons] at hrec ⊢
      exact hrec
  | case5 lim now url options dt rr m a h0 needsAuth step hcond response hfetch
      h401 hauth =>
      intro _
      rw [executeRequest_step401Fail env lim now url options dt rr m a response
        h0 hcond hfetch h401 hauth]
      cases dt <;> simp +decide [countWaitAuthEvents, onFailEvents,
        List.countP_cons, List.countP_nil]
  | case6 lim now url options dt rr m a h0 needsAuth step hcond response hfetch
      lim1 h401 h429 ih =>
      intro hna
      rw [executeRequest_step429 env lim now url options dt rr m a response h0
        hcond hfetch h429]
      have hrec := ih hna
      unfold lim1 at hrec
      simp +decide [countWaitAuthEvents, List.countP_cons] at hrec ⊢
      exact hrec
  | case7 lim now url options dt rr m a h0 needsAuth step hcond response hfetch
      h401 h429 h400 =>
      intro _
      rw [executeRequest_step400 env lim now url options dt rr m a response h0
        hcond hfetch h401 h429 h400]
      cases dt <;> simp +decide [countWaitAuthEvents, onFailEvents,
        List.countP_cons, List.countP_nil]
  | case8 lim now url options dt rr m a h0 needsAuth step hcond response hfetch
      h401 h429 h400 hnotok =>
      intro _
      rw [executeRequest_stepNotOk env lim now url options dt rr m a response h0
        hcond hfetch h401 h429 h400 (by simpa using hnotok)]
      cases dt <;> simp +decide [countWaitAuthEvents, onFailEvents,
        List.countP_cons, List.countP_nil]
  | case9 lim now url options dt m a h0 needsAuth step hcond response hfetch
      h401 h429 h400 hok =>
      intro _
      rw [executeRequest_stepRaw env lim now url options dt m a response h0
        hcond hfetch h401 h429 h400 (by simpa using hok)]
      simp +decide [countWaitAuthEvents, List.countP_cons, List.countP_nil]
  | case10 lim now url options dt rr m a h0 needsAuth step hcond response hfetch
      h401 h429 h400 hok hrr d hjson =>
      intro _
      have hrr0 : rr = false := by simpa using hrr
      subst hrr0
      rw [executeRequest_stepJson env lim now url options dt m a response d h0
        hcond hfetch h401 h429 h400 (by simpa using hok) hjson]
      simp +decide [countWaitAuthEvents, List.countP_cons, List.countP_nil]
  | case11 lim now url options dt rr m a h0 needsAuth step hcond response hfetch
      h401 h429 h400 hok hrr hjson =>
      intro _
      have hrr0 : rr = false := by simpa using hrr
      subst hrr0
      rw [executeRequest_stepJsonFail env lim now url options dt m a response h0
        hcond hfetch h401 h429 h400 (by simpa using hok) hjson]
      cases dt <;> simp +decide [countWaitAuthEvents, onFailEvents,
        List.countP_cons, List.countP_nil]

/-- C7 counterexample: the code treats /api/authenticate as an
unauthenticated route, yet that url matches none of the five prefixes
the claim enumerates, so the claim that a url requires authentication
unless it matches one of exactly those five prefixes is false of the
code. -/
theorem C7_five_prefixes_counterexample :
    needsAuthFor "/api/authenticate" = false ∧
    specUnauthedRoutePrefixes.any
      (fun p => strIsPrefixOf p "/api/authenticate") = false := by decide

/-- C7 amended: a url requires authentication unless it matches one of
exactly the four prefixes of the source list (the authenticate endpoint,
the whole options namespace, the static configuration document, and the
OAuth callback); a call to a url matching one of them never records the
auth-wait delay even when no token is present, while a call to any
other url with no token present waits for authentication first. -/
theorem C7_amended_four_prefixes_no_auth_wait (env : Env)
    (lim : RateLimiterState) (now : ℤ) (url : String) (options : RequestInit)
    (dt rr : Bool) (m : ℤ) (a : ℕ) :
    (needsAuthFor url = false ↔
      ∃ p ∈ UNAUTHED_ROUTE_PREFIXES, strIsPrefixOf p url = true) ∧
    (needsAuthFor url = false →
      countWaitAuthEvents
        (executeRequest env lim now url options dt rr m a).2.1 = 0) ∧
    (needsAuthFor url = true → jsTruthyStr (env a).token = false → ¬ m < 0 →
      (executeRequest env lim now url options dt rr m a).2.1.head? =
        some (Event.waitAuth WAIT_FOR_AUTH_DELAY_MS)) := by
  refine ⟨?_, fun hna => countWaitAuth_zero_of_unauthed env lim now url options
    dt rr m a hna, fun hna htok h0 => ?_⟩
  · simp [needsAuthFor, List.any_eq_true]
  · rw [executeRequest_stepWait env lim now url options dt rr m a h0
      (by simp [htok, hna])]
    rfl

theorem C7_amended_four_prefixes_no_auth_wait_witness :
    countWaitAuthEvents
      (executeRequest noTokenEnv ⟨⟨JsNum.inf, JsNum.val 0, JsNum.inf⟩, 1000⟩ 0
        "/api/options/models" defaultInit false false 3 0).2.1 = 0 ∧
    (executeRequest noTokenEnv ⟨⟨JsNum.inf, JsNum.val 0, JsNum.inf⟩, 1000⟩ 0
        "/api/x" defaultInit false false 3 0).2.1.head? =
      some (Event.waitAuth WAIT_FOR_AUTH_DELAY_MS) :=
  ⟨(C7_amended_four_prefixes_no_auth_wait noTokenEnv
      ⟨⟨JsNum.inf, JsNum.val 0, JsNum.inf⟩, 1000⟩ 0 "/api/options/models"
      defaultInit false false 3 0).2.1 (by decide),
   (C7_amended_four_prefixes_no_auth_wait noTokenEnv
      ⟨⟨JsNum.inf, JsNum.val 0, JsNum.inf⟩, 1000⟩ 0 "/api/x"
      defaultInit false false 3 0).2.2 (by decide) (by decide) (by decide)⟩


/-- Reading a key right after deleting it misses. -/
theorem CacheModel.get_delete_self (c : CacheModel) (k : String) :
    (c.delete k).get k = none := by
  induction c with
  | nil => rfl
  | cons e rest ih =>
      by_cases h : (e.1 == k) = true
      · simpa [CacheModel.delete, List.filter_cons, h] using ih
      · simp only [CacheModel.delete, List.filter_cons, h] at ih ⊢
        simpa [CacheModel.get, List.find?_cons, h] using ih

/-- Deleting one key leaves every other key unchanged. -/
theorem CacheModel.get_delete_ne (c : CacheModel) (k k2 : String)
    (hne : k2 ≠ k) :
    (c.delete k).get k2 = c.get k2 := by
  induction c with
  | nil => rfl
  | cons e rest ih =>
      by_cases h : (e.1 == k) = true
      · have h2 : (e.1 == k2) = false := by
          have he : e.1 = k := by simpa using h
          simp [he]
          exact fun hc => hne hc.symm
        simp only [CacheModel.delete, List.filter_cons, h] at ih ⊢
        simp only [CacheModel.get, List.find?_cons, h2] at ih ⊢
        simpa [h] using ih
      · by_cases h2 : (e.1 == k2) = true
        · simp [CacheModel.delete, List.filter_cons, CacheModel.get,
            List.find?_cons, h2, h]
        · simp only [CacheModel.delete, List.filter_cons, h] at ih ⊢
          simp only [CacheModel.get, List.find?_cons, h2] at ih ⊢
          simpa [h, h2] using ih

/-- Reading any key after the per-file directory deletions of
uploadFiles: a key misses exactly when it is one of the deleted
directory listing keys. -/
theorem get_foldl_deleteDirStep (files : List FileModel) (c : CacheModel)
    (k : String) :
    (files.foldl deleteDirStep c).get k =
      if k ∈ uploadDirKeys files then none else c.get k := by
  induction files generalizing c with
  | nil => simp [uploadDirKeys]
  | cons f rest ih =>
      by_cases hd : parentDirOf f.path = ""
      · rw [List.foldl_cons]
        simp only [deleteDirStep, hd, if_pos rfl]
        rw [ih]
        have hk : uploadDirKeys (f :: rest) = uploadDirKeys rest := by
          simp [uploadDirKeys, List.filterMap_cons, hd]
        rw [hk]
        simp
      · rw [List.foldl_cons]
        simp only [deleteDirStep, hd, if_neg hd]
        rw [ih]
        have hk : uploadDirKeys (f :: rest) =
            ("files:" ++ parentDirOf f.path) :: uploadDirKeys rest := by
          simp [uploadDirKeys, List.filterMap_cons, hd]
        rw [hk]
        by_cases hmem : k ∈ uploadDirKeys rest
        · simp [hmem]
        · by_cases hkey : k = "files:" ++ parentDirOf f.path
          · simp [hmem, hkey, CacheModel.get_delete_self]
          · simp [hmem, hkey, CacheModel.get_delete_ne c _ k hkey]

/-- C8: saveFile deletes exactly the cache entries of the file itself,
the root listing, and the parent directory listing (every other key is
untouched), so a subsequent getFile of the path or getFiles of the root
or of the parent directory re-fetches from the backend; uploadFiles
deletes the root listing plus the directory listing of each uploaded
file with a nonempty directory part, and nothing else. -/
theorem C8_mutations_invalidate_exactly_stale_keys (c : CacheModel)
    (backendFile : String → String) (backendFiles : Option String → String)
    (path content : String) (files : List FileModel) :
    ((OpenHands.saveFileCache c path content).get ("file:" ++ path) = none ∧
     (OpenHands.saveFileCache c path content).get "files:root" = none ∧
     (OpenHands.saveFileCache c path content).get
       ("files:" ++ parentDirOf path) = none) ∧
    (∀ k, k ≠ "file:" ++ path → k ≠ "files:root" →
      k ≠ "files:" ++ parentDirOf path →
      (OpenHands.saveFileCache c path content).get k = c.get k) ∧
    (OpenHands.getFile (OpenHands.saveFileCache c path content) backendFile
      path).fetchedFromBackend = true ∧
    (OpenHands.getFiles (OpenHands.saveFileCache c path content) backendFiles
      none).fetchedFromBackend = true ∧
    (OpenHands.getFiles (OpenHands.saveFileCache c path content) backendFiles
      (some (parentDirOf path))).fetchedFromBackend = true ∧
    (OpenHands.uploadFilesCache c files).get "files:root" = none ∧
    (∀ f ∈ files, parentDirOf f.path ≠ "" →
      (OpenHands.uploadFilesCache c files).get
        ("files:" ++ parentDirOf f.path) = none) ∧
    (∀ k, k ≠ "files:root" → k ∉ uploadDirKeys files →
      (OpenHands.uploadFilesCache c files).get k = c.get k) := by
  have hfile : (OpenHands.saveFileCache c path content).get
      ("file:" ++ path) = none := by
    unfold OpenHands.saveFileCache
    by_cases h1 : ("file:" ++ path) = ("files:" ++ parentDirOf path)
    · rw [h1]; exact CacheModel.get_delete_self _ _
    · rw [CacheModel.get_delete_ne _ _ _ h1]
      by_cases h2 : ("file:" ++ path) = "files:root"
      · rw [h2]; exact CacheModel.get_delete_self _ _
      · rw [CacheModel.get_delete_ne _ _ _ h2]
        exact CacheModel.get_delete_self _ _
  have hroot : (OpenHands.saveFileCache c path content).get
      "files:root" = none := by
    unfold OpenHands.saveFileCache
    by_cases h1 : ("files:root" : String) = ("files:" ++ parentDirOf path)
    · rw [h1]; exact CacheModel.get_delete_self _ _
    · rw [CacheModel.get_delete_ne _ _ _ h1]
      exact CacheModel.get_delete_self _ _
  have hparent : (OpenHands.saveFileCache c path content).get
      ("files:" ++ parentDirOf path) = none :=
    CacheModel.get_delete_self _ _
  have hframe : ∀ k, k ≠ "file:" ++ path → k ≠ "files:root" →
      k ≠ "files:" ++ parentDirOf path →
      (OpenHands.saveFileCache c path content).get k = c.get k := by
    intro k hk1 hk2 hk3
    unfold OpenHands.saveFileCache
    rw [CacheModel.get_delete_ne _ _ _ hk3, CacheModel.get_delete_ne _ _ _ hk2,
      CacheModel.get_delete_ne _ _ _ hk1]
  have hupRoot : (OpenHands.uploadFilesCache c files).get "files:root" = none := by
    unfold OpenHands.uploadFilesCache
    rw [get_foldl_deleteDirStep]
    by_cases hmem : ("files:root" : String) ∈ uploadDirKeys files
    · simp [hmem]
    · simp [hmem, CacheModel.get_delete_self]
  refine ⟨⟨hfile, hroot, hparent⟩, hframe, ?_, ?_, ?_, hupRoot, ?_, ?_⟩
  · simp [OpenHands.getFile, hfile]
  · simp [OpenHands.getFiles, getFilesCacheKey, hroot]
  · by_cases hd : parentDirOf path = ""
    · simp [OpenHands.getFiles, getFilesCacheKey, hd, hroot]
    · simp [OpenHands.getFiles, getFilesCacheKey, hd, hparent]
  · intro f hf hd
    unfold OpenHands.uploadFilesCache
    rw [get_foldl_deleteDirStep]
    have hmem : ("files:" ++ parentDirOf f.path) ∈ uploadDirKeys files := by
      simp only [uploadDirKeys, List.mem_filterMap]
      exact ⟨f, hf, by simp [hd]⟩
    simp [hmem]
  · intro k hk1 hk2
    unfold OpenHands.uploadFilesCache
    rw [get_foldl_deleteDirStep]
    simp [hk2, CacheModel.get_delete_ne _ _ _ hk1]

theorem C8_mutations_invalidate_exactly_stale_keys_witness :
    (OpenHands.saveFileCache
        [("file:/a/b.txt", "x"), ("files:root", "y"), ("files:/a", "z"),
         ("other", "w")] "/a/b.txt" "x").get "file:/a/b.txt" = none ∧
    (OpenHands.saveFileCache
        [("file:/a/b.txt", "x"), ("files:root", "y"), ("files:/a", "z"),
         ("other", "w")] "/a/b.txt" "x").get "other" =
      CacheModel.get
        [("file:/a/b.txt", "x"), ("files:root", "y"), ("files:/a", "z"),
         ("other", "w")] "other" ∧
    (OpenHands.uploadFilesCache
        [("files:root", "y"), ("files:dir1", "z")]
        [⟨"f.txt", "dir1/f.txt"⟩]).get "files:dir1" = none :=
  ⟨(C8_mutations_invalidate_exactly_stale_keys
      [("file:/a/b.txt", "x"), ("files:root", "y"), ("files:/a", "z"),
       ("other", "w")] id (fun _ => "") "/a/b.txt" "x" []).1.1,
   (C8_mutations_invalidate_exactly_stale_keys
      [("file:/a/b.txt", "x"), ("files:root", "y"), ("files:/a", "z"),
       ("other", "w")] id (fun _ => "") "/a/b.txt" "x" []).2.1 "other"
     (by decide) (by decide) (by decide),
   (C8_mutations_invalidate_exactly_stale_keys
      [("files:root", "y"), ("files:dir1", "z")] id (fun _ => "") "" ""
      [⟨"f.txt", "dir1/f.txt"⟩]).2.2.2.2.2.2.1 ⟨"f.txt", "dir1/f.txt"⟩
     (by decide) (by decide)⟩

/-- Reading below the allocation point is unchanged by an allocation. -/
theorem RLIHeap.read_alloc_lt (h : RLIHeap) (v : RateLimitInfo) (r : ℕ)
    (hr : r < h.objs.length) : ((h.alloc v).1).read r = h.read r := by
  simp [RLIHeap.alloc, RLIHeap.read, List.getD_eq_getElem?_getD,
    List.getElem?_append, hr]

/-- Reading the freshly allocated reference yields the stored value. -/
theorem RLIHeap.read_alloc_fresh (h : RLIHeap) (v : RateLimitInfo) :
    ((h.alloc v).1).read h.objs.length = v := by
  simp [RLIHeap.alloc, RLIHeap.read, List.getD_eq_getElem?_getD,
    List.getElem?_concat_length]

/-- Writing one reference leaves every other reference unchanged. -/
theorem RLIHeap.read_write_ne (h : RLIHeap) (r2 r : ℕ) (v : RateLimitInfo)
    (hne : r2 ≠ r) : (h.write r2 v).read r = h.read r := by
  simp [RLIHeap.write, RLIHeap.read, List.getD_eq_getElem?_getD,
    List.getElem?_set_ne hne]

/-- A sequence of field mutations at one reference leaves every other
reference unchanged. -/
theorem RLIHeap.read_mutateAll_ne (h : RLIHeap) (r2 r : ℕ)
    (us : List FieldUpdate) (hne : r2 ≠ r) :
    (h.mutateAll r2 us).read r = h.read r := by
  induction us generalizing h with
  | nil => rfl
  | cons u rest ih =>
      have hstep : (h.mutate r2 u).read r = h.read r :=
        RLIHeap.read_write_ne _ _ _ _ hne
      calc (h.mutateAll r2 (u :: rest)).read r
          = ((h.mutate r2 u).mutateAll r2 rest).read r := rfl
        _ = (h.mutate r2 u).read r := ih _
        _ = h.read r := hstep

/-- C9: getRateLimitStatus of OpenHands and getRateLimitInfo of the
RateLimiter return a freshly allocated copy of the stored record, never
the stored object itself: the returned reference differs from the store
reference, it initially holds the same three fields, and any sequence of
field mutations applied through the returned reference leaves the record
observed through the store reference unchanged. -/
theorem C9_get_rate_limit_status_returns_copy (h : RLIHeap) (selfRef : ℕ)
    (hval : selfRef < h.objs.length) :
    ((OpenHands.getRateLimitStatus h selfRef).2 ≠ selfRef ∧
     (OpenHands.getRateLimitStatus h selfRef).1.read
       (OpenHands.getRateLimitStatus h selfRef).2 = h.read selfRef ∧
     ∀ us : List FieldUpdate,
       (RLIHeap.mutateAll (OpenHands.getRateLimitStatus h selfRef).1
         (OpenHands.getRateLimitStatus h selfRef).2 us).read selfRef =
       h.read selfRef) ∧
    ((RateLimiter.getRateLimitInfoCopy h selfRef).2 ≠ selfRef ∧
     (RateLimiter.getRateLimitInfoCopy h selfRef).1.read
       (RateLimiter.getRateLimitInfoCopy h selfRef).2 = h.read selfRef ∧
     ∀ us : List FieldUpdate,
       (RLIHeap.mutateAll (RateLimiter.getRateLimitInfoCopy h selfRef).1
         (RateLimiter.getRateLimitInfoCopy h selfRef).2 us).read selfRef =
       h.read selfRef) := by
  have hne : h.objs.length ≠ selfRef := by omega
  constructor
  · refine ⟨by show h.objs.length ≠ selfRef; omega,
      RLIHeap.read_alloc_fresh h _, fun us => ?_⟩
    exact (RLIHeap.read_mutateAll_ne _ _ _ us hne).trans
      (RLIHeap.read_alloc_lt h _ selfRef hval)
  · refine ⟨by show h.objs.length ≠ selfRef; omega,
      RLIHeap.read_alloc_fresh h _, fun us => ?_⟩
    exact (RLIHeap.read_mutateAll_ne _ _ _ us hne).trans
      (RLIHeap.read_alloc_lt h _ selfRef hval)

theorem C9_get_rate_limit_status_returns_copy_witness :
    (OpenHands.getRateLimitStatus
      ⟨[⟨JsNum.val 10, JsNum.val 0, JsNum.val 100⟩]⟩ 0).2 ≠ 0 ∧
    (RLIHeap.mutateAll
      (OpenHands.getRateLimitStatus
        ⟨[⟨JsNum.val 10, JsNum.val 0, JsNum.val 100⟩]⟩ 0).1
      (OpenHands.getRateLimitStatus
        ⟨[⟨JsNum.val 10, JsNum.val 0, JsNum.val 100⟩]⟩ 0).2
      [FieldUpdate.setResetTime (JsNum.val 999)]).read 0 =
    RLIHeap.read ⟨[⟨JsNum.val 10, JsNum.val 0, JsNum.val 100⟩]⟩ 0 :=
  ⟨(C9_get_rate_limit_status_returns_copy
      ⟨[⟨JsNum.val 10, JsNum.val 0, JsNum.val 100⟩]⟩ 0 (by decide)).1.1,
   (C9_get_rate_limit_status_returns_copy
      ⟨[⟨JsNum.val 10, JsNum.val 0, JsNum.val 100⟩]⟩ 0 (by decide)).1.2.2
     [FieldUpdate.setResetTime (JsNum.val 999)]⟩

/-- C10: the static RateLimitInfo store of the OpenHands class is a
second, independent store: every call through request leaves it
unchanged, whatever the url, options, flags, budget and responses (the
rate-limit headers of responses update only the limiter state), and it
is assigned exactly by a checkRateLimit call whose underlying request
succeeds, while a failing checkRateLimit leaves it unchanged as well. -/
theorem C10_openhands_store_only_checkRateLimit_writes
    (decode : String → RateLimitInfo) (env : Env) (now : ℤ) (url : String)
    (options : RequestInit) (dt rr : Bool) (m : ℤ) (sys : SystemState) :
    ((request env now url options dt rr m sys).2.2.openHandsInfo =
      sys.openHandsInfo) ∧
    (∀ d, (executeRequest env sys.limiter now "/api/rate-limit" defaultInit
        true false 3 0).1 = ReqResult.success d →
      (OpenHands.checkRateLimit decode env now sys).2.openHandsInfo =
        decode d) ∧
    (∀ msg, (executeRequest env sys.limiter now "/api/rate-limit" defaultInit
        true false 3 0).1 = ReqResult.error msg →
      (OpenHands.checkRateLimit decode env now sys).2.openHandsInfo =
        sys.openHandsInfo) := by
  refine ⟨rfl, fun d hd => ?_, fun msg hmsg => ?_⟩
  · simp [OpenHands.checkRateLimit, request, hd]
  · simp [OpenHands.checkRateLimit, request, hmsg]

theorem C10_openhands_store_only_checkRateLimit_writes_witness :
    (request c2Env 5000 "/api/x" defaultInit false false 3
      c10Sys).2.2.openHandsInfo = c10Sys.openHandsInfo ∧
    (OpenHands.checkRateLimit c10Decode c2Env 5000 c10Sys).2.openHandsInfo =
      c10Decode "body" :=
  ⟨(C10_openhands_store_only_checkRateLimit_writes c10Decode c2Env 5000
      "/api/x" defaultInit false false 3 c10Sys).1,
   (C10_openhands_store_only_checkRateLimit_writes c10Decode c2Env 5000
      "/api/x" defaultInit false false 3 c10Sys).2.1 "body"
     (by rw [executeRequest_stepJson c2Env c10Sys.limiter 5000
         "/api/rate-limit" defaultInit true 3 0
         ⟨200, true, "OK", emptyHeaders, some "body"⟩ "body"
         (by decide) (by decide) rfl (by decide) (by decide) (by decide)
         rfl rfl])⟩
